import Mathlib

/-!
# Verification of the AAVA DIGIPIN codec and confidence scorer

Shallow embedding of `src/utils/digipin.py` and `src/utils/confidence_score.py`.
Coordinates and grid windows are modelled with exact rationals (the Python source
computes with IEEE floats; the algorithm itself is plain field arithmetic plus
`int()` truncation, which we embed exactly).  Timestamps are modelled as rational
"days since epoch"; `timedelta.days` is the floor of the difference in days.
Real-valued transcendental arithmetic (`math.exp`, `math.log`, `math.cos`,
haversine) is embedded over `ℝ`.
-/

namespace Digipin

/-- Geographic bounds for India (`MIN_LAT` in `digipin.py`). -/
def MIN_LAT : ℚ := 2.5
/-- Source: `MAX_LAT` in `digipin.py`. -/
def MAX_LAT : ℚ := 38.5
/-- Source: `MIN_LON` in `digipin.py`. -/
def MIN_LON : ℚ := 63.5
/-- Source: `MAX_LON` in `digipin.py`. -/
def MAX_LON : ℚ := 99.5

/-- The 16-character DIGIPIN alphabet (`DIGIPIN_CHARS = "23456789CFJKLMPT"`). -/
def DIGIPIN_CHARS : List Char :=
  ['2', '3', '4', '5', '6', '7', '8', '9', 'C', 'F', 'J', 'K', 'L', 'M', 'P', 'T']

/-- The 4x4 grid label matrix (`LABEL_GRID` in `digipin.py`).
Row 0 is top (higher latitude), col 0 is left (lower longitude). -/
def LABEL_GRID : List (List Char) :=
  [['F', 'C', '9', '8'],
   ['J', '3', '2', '7'],
   ['K', '4', '5', '6'],
   ['L', 'M', 'P', 'T']]

/-- Reverse lookup from character to `(row, col)` (`CHAR_TO_POSITION`, built in
the source by enumerating `LABEL_GRID`; the agreement with `LABEL_GRID` is proved
in `charToPosition_labelAt` below). -/
def charToPosition : Char → Option (ℕ × ℕ)
  | 'F' => some (0, 0) | 'C' => some (0, 1) | '9' => some (0, 2) | '8' => some (0, 3)
  | 'J' => some (1, 0) | '3' => some (1, 1) | '2' => some (1, 2) | '7' => some (1, 3)
  | 'K' => some (2, 0) | '4' => some (2, 1) | '5' => some (2, 2) | '6' => some (2, 3)
  | 'L' => some (3, 0) | 'M' => some (3, 1) | 'P' => some (3, 2) | 'T' => some (3, 3)
  | _ => none

/-- Source: `NUM_LEVELS = 10`. -/
def NUM_LEVELS : ℕ := 10

/-- A lat/lon window `[min_lat, max_lat] × [min_lon, max_lon]` (the mutable
bounds maintained by `encode`/`decode`, and the `bounds` dict of a result). -/
structure Window where
  min_lat : ℚ
  max_lat : ℚ
  min_lon : ℚ
  max_lon : ℚ
deriving DecidableEq

/-- The full India bounding box, the initial window of `encode` and `decode`. -/
def indiaWindow : Window := ⟨MIN_LAT, MAX_LAT, MIN_LON, MAX_LON⟩

/-- Source: `lat_step = (max_lat - min_lat) / 4`. -/
def latStep (w : Window) : ℚ := (w.max_lat - w.min_lat) / 4

/-- Source: `lon_step = (max_lon - min_lon) / 4`. -/
def lonStep (w : Window) : ℚ := (w.max_lon - w.min_lon) / 4

/-- Python `int()` applied to an exact rational: truncation toward zero. -/
def pyInt (x : ℚ) : ℤ := if x < 0 then -(⌊-x⌋) else ⌊x⌋

/-- Source: `row = min(int((max_lat - latitude) / lat_step), 3)` in `encode`. -/
def rowFor (w : Window) (lat : ℚ) : ℤ := min (pyInt ((w.max_lat - lat) / latStep w)) 3

/-- Source: `col = min(int((longitude - min_lon) / lon_step), 3)` in `encode`. -/
def colFor (w : Window) (lon : ℚ) : ℤ := min (pyInt ((lon - w.min_lon) / lonStep w)) 3

/-- The sub-window selected for `(row, col)`: the common bounds update of
`encode` and `decode` (`new_min_lat = max_lat - (row+1)*lat_step`, etc.). -/
def childWindow (w : Window) (row col : ℤ) : Window :=
  ⟨w.max_lat - ((row : ℚ) + 1) * latStep w,
   w.max_lat - (row : ℚ) * latStep w,
   w.min_lon + (col : ℚ) * lonStep w,
   w.min_lon + ((col : ℚ) + 1) * lonStep w⟩

/-- Python list indexing, including single-wrap negative indices.
(Indices outside `[-len, len)` raise `IndexError` in Python; here they give
`none`.  Within `encode` after the bounds check rows/cols stay in `[0, 3]`,
see `rowFor_nonneg_le_three` below.) -/
def pyIdx {α : Type} (xs : List α) (i : ℤ) : Option α :=
  if 0 ≤ i then xs.get? i.toNat
  else if 0 ≤ i + xs.length then xs.get? (i + xs.length).toNat
  else none

/-- Source: `char = self.label_grid[row][col]` in `encode`. -/
def labelAt (row col : ℤ) : Char :=
  ((pyIdx LABEL_GRID row).bind fun r => pyIdx r col).getD '!'

/-- The `for level in range(NUM_LEVELS)` loop of `encode`: returns the emitted
characters and the final window. -/
def encodeSteps : ℕ → Window → ℚ → ℚ → List Char × Window
  | 0, w, _, _ => ([], w)
  | Nat.succ n, w, lat, lon =>
    let row := rowFor w lat
    let col := colFor w lon
    let rest := encodeSteps n (childWindow w row col) lat lon
    (labelAt row col :: rest.1, rest.2)

/-- Source: `_is_within_bounds` in `digipin.py`. -/
def isWithinBounds (lat lon : ℚ) : Bool :=
  decide (MIN_LAT ≤ lat ∧ lat ≤ MAX_LAT ∧ MIN_LON ≤ lon ∧ lon ≤ MAX_LON)

/-- Python whitespace characters relevant to `str.strip()` (ASCII subset). -/
def pyIsSpaceChar (c : Char) : Bool :=
  c == ' ' || c == '\t' || c == '\n' || c == '\r' || c == '\x0b' || c == '\x0c'

/-- Python `str.strip()`: drop whitespace from both ends. -/
def pyStrip (s : List Char) : List Char :=
  ((s.dropWhile pyIsSpaceChar).reverse.dropWhile pyIsSpaceChar).reverse

/-- Source: `_clean_digipin`: `digipin.replace('-', '').replace(' ', '').strip().upper()`. -/
def cleanDigipin (s : List Char) : List Char :=
  (pyStrip ((s.filter (fun c => c != '-')).filter (fun c => c != ' '))).map Char.toUpper

/-- Source: `validate` in `digipin.py`. -/
def validate (s : List Char) : Bool :=
  let clean := cleanDigipin s
  if clean.length ≠ NUM_LEVELS then false
  else (clean.map Char.toUpper).all (fun c => DIGIPIN_CHARS.contains c)

/-- Source: `validate_with_details` in `digipin.py`: `(is_valid, message)`. -/
def validateWithDetails (s : List Char) : Bool × String :=
  if s.isEmpty then (false, "DIGIPIN cannot be empty")
  else
    let clean := cleanDigipin s
    if clean.length ≠ NUM_LEVELS then
      (false, "DIGIPIN must be " ++ toString NUM_LEVELS ++ " characters (got "
        ++ toString clean.length ++ ")")
    else
      let invalid := (clean.map Char.toUpper).filter (fun c => !(DIGIPIN_CHARS.contains c))
      if invalid.isEmpty then (true, "Valid DIGIPIN")
      else
        (false, "Invalid characters: "
          ++ String.intercalate ", " (invalid.map fun c => String.mk [c])
          ++ ". Valid: " ++ String.mk DIGIPIN_CHARS)

/-- Source: `_format_digipin`: `XXX-XXX-XXXX`. -/
def formatDigipin (s : List Char) : List Char :=
  let clean := cleanDigipin s
  if clean.length = 10 then
    clean.take 3 ++ '-' :: ((clean.drop 3).take 3) ++ '-' :: clean.drop 6
  else clean

/-- Result of encoding or decoding (`DIGIPINResult` dataclass; the empty
`bounds` dict of the failure branches is `none`; the display-only
`resolution_meters` field is modelled separately as `resolutionMeters`). -/
structure DIGIPINResult where
  digipin : List Char
  formatted : List Char
  center_lat : ℚ
  center_lon : ℚ
  bounds : Option Window
  valid : Bool
  error : Option String
deriving DecidableEq

/-- Source: `encode` in `digipin.py`.  (The out-of-bounds error message interpolates
the numeric inputs in the source; the numeric rendering of floats is not
modelled, only the fixed text.) -/
def encode (lat lon : ℚ) : DIGIPINResult :=
  if isWithinBounds lat lon then
    let r := encodeSteps NUM_LEVELS indiaWindow lat lon
    { digipin := r.1
      formatted := formatDigipin r.1
      center_lat := (r.2.min_lat + r.2.max_lat) / 2
      center_lon := (r.2.min_lon + r.2.max_lon) / 2
      bounds := some r.2
      valid := true
      error := none }
  else
    { digipin := []
      formatted := []
      center_lat := lat
      center_lon := lon
      bounds := none
      valid := false
      error := some "Coordinates outside India bounds" }

/-- One iteration of the decode window-narrowing loop: look up each character
`(row, col)` and narrow to that sub-cell.  (A character missing from
`char_to_pos` would raise `KeyError` in Python; `decode` only reaches this loop
after validation, so every character is in the table.) -/
def decodeStep (w : Window) (c : Char) : Window :=
  match charToPosition c with
  | some (row, col) => childWindow w (row : ℤ) (col : ℤ)
  | none => w

/-- The decode loop run from a given start window. -/
def decodeWindowFrom (w : Window) (cs : List Char) : Window := cs.foldl decodeStep w

/-- The decode loop run from the full India window. -/
def decodeWindow (cs : List Char) : Window := decodeWindowFrom indiaWindow cs

/-- Source: `decode` in `digipin.py`. -/
def decode (s : List Char) : DIGIPINResult :=
  let v := validateWithDetails s
  if v.1 = false then
    { digipin := s
      formatted := []
      center_lat := 0
      center_lon := 0
      bounds := none
      valid := false
      error := some v.2 }
  else
    let clean := (cleanDigipin s).map Char.toUpper
    let w := decodeWindowFrom indiaWindow clean
    { digipin := clean
      formatted := formatDigipin clean
      center_lat := (w.min_lat + w.max_lat) / 2
      center_lon := (w.min_lon + w.max_lon) / 2
      bounds := some w
      valid := true
      error := none }

/-- Source: `_calculate_resolution` in `digipin.py` (display-only, real-valued). -/
noncomputable def resolutionMeters (w : Window) : ℝ :=
  let center_lat : ℝ := (((w.min_lat + w.max_lat) / 2 : ℚ) : ℝ)
  let meters_per_deg_lat : ℝ := 111320
  let meters_per_deg_lon : ℝ := 111320 * Real.cos (center_lat * Real.pi / 180)
  (((w.max_lat - w.min_lat : ℚ) : ℝ) * meters_per_deg_lat
    + ((w.max_lon - w.min_lon : ℚ) : ℝ) * meters_per_deg_lon) / 2

/-- Membership of a coordinate in a window (closed box). -/
def memW (w : Window) (lat lon : ℚ) : Prop :=
  w.min_lat ≤ lat ∧ lat ≤ w.max_lat ∧ w.min_lon ≤ lon ∧ lon ≤ w.max_lon

instance (w : Window) (lat lon : ℚ) : Decidable (memW w lat lon) := by
  unfold memW; infer_instance

/-- Strict membership of a coordinate in a window (open box). -/
def strictMemW (w : Window) (lat lon : ℚ) : Prop :=
  w.min_lat < lat ∧ lat < w.max_lat ∧ w.min_lon < lon ∧ lon < w.max_lon

/-- Nondegeneracy of a window. -/
def posW (w : Window) : Prop := w.min_lat < w.max_lat ∧ w.min_lon < w.max_lon

/-- Lemma: `w1` is contained in `w2`. -/
def subW (w1 w2 : Window) : Prop :=
  w2.min_lat ≤ w1.min_lat ∧ w1.max_lat ≤ w2.max_lat ∧
  w2.min_lon ≤ w1.min_lon ∧ w1.max_lon ≤ w2.max_lon

end Digipin

namespace Digipin

lemma latStep_pos {w : Window} (hw : w.min_lat < w.max_lat) : 0 < latStep w := by
  unfold latStep
  have h4 : (0:ℚ) < 4 := by norm_num
  exact div_pos (by linarith) h4

lemma lonStep_pos {w : Window} (hw : w.min_lon < w.max_lon) : 0 < lonStep w := by
  unfold lonStep
  have h4 : (0:ℚ) < 4 := by norm_num
  exact div_pos (by linarith) h4

lemma four_latStep (w : Window) : 4 * latStep w = w.max_lat - w.min_lat := by
  unfold latStep; ring

lemma four_lonStep (w : Window) : 4 * lonStep w = w.max_lon - w.min_lon := by
  unfold lonStep; ring

lemma pyInt_of_nonneg {x : ℚ} (h : 0 ≤ x) : pyInt x = ⌊x⌋ := by
  unfold pyInt
  rw [if_neg (not_lt.mpr h)]

/-- Row analysis of `encode`: for a latitude inside the window, the clamped
truncation lands in `[0, 3]` and the latitude band of the selected row contains
the point. -/
lemma rowFor_spec (w : Window) (lat : ℚ) (hw : w.min_lat < w.max_lat)
    (h1 : w.min_lat ≤ lat) (h2 : lat ≤ w.max_lat) :
    0 ≤ rowFor w lat ∧ rowFor w lat ≤ 3 ∧
    w.max_lat - ((rowFor w lat : ℚ) + 1) * latStep w ≤ lat ∧
    lat ≤ w.max_lat - (rowFor w lat : ℚ) * latStep w := by
  have hs : 0 < latStep w := latStep_pos hw
  set x : ℚ := (w.max_lat - lat) / latStep w with hx
  have hx0 : 0 ≤ x := div_nonneg (by linarith) hs.le
  have hx4 : x ≤ 4 := by
    rw [hx, div_le_iff hs]
    have := four_latStep w
    linarith
  have hpy : pyInt x = ⌊x⌋ := pyInt_of_nonneg hx0
  have hr : rowFor w lat = min ⌊x⌋ 3 := by
    unfold rowFor
    rw [← hx, hpy]
  have hxs : x * latStep w = w.max_lat - lat := by
    field_simp [hx]
  have h0r : 0 ≤ min ⌊x⌋ 3 := le_min (Int.floor_nonneg.mpr hx0) (by norm_num)
  have h3r : min ⌊x⌋ 3 ≤ 3 := min_le_right _ _
  refine ⟨hr ▸ h0r, hr ▸ h3r, ?_, ?_⟩
  · -- lower bound of the selected band
    rw [hr]
    have hxr : x ≤ ((min ⌊x⌋ 3 : ℤ) : ℚ) + 1 := by
      by_cases hle : ⌊x⌋ ≤ 3
      · rw [min_eq_left hle]
        exact (Int.lt_floor_add_one x).le
      · rw [min_eq_right (le_of_not_le hle)]
        push_cast
        linarith
    have := mul_le_mul_of_nonneg_right hxr hs.le
    rw [hxs] at this
    linarith
  · -- upper bound of the selected band
    rw [hr]
    have hxr : ((min ⌊x⌋ 3 : ℤ) : ℚ) ≤ x := by
      have h1' : ((min ⌊x⌋ 3 : ℤ) : ℚ) ≤ ((⌊x⌋ : ℤ) : ℚ) := by
        exact_mod_cast min_le_left _ _
      exact h1'.trans (Int.floor_le x)
    have := mul_le_mul_of_nonneg_right hxr hs.le
    rw [hxs] at this
    linarith

/-- Column analysis of `encode`, symmetric to `rowFor_spec`. -/
lemma colFor_spec (w : Window) (lon : ℚ) (hw : w.min_lon < w.max_lon)
    (h1 : w.min_lon ≤ lon) (h2 : lon ≤ w.max_lon) :
    0 ≤ colFor w lon ∧ colFor w lon ≤ 3 ∧
    w.min_lon + (colFor w lon : ℚ) * lonStep w ≤ lon ∧
    lon ≤ w.min_lon + ((colFor w lon : ℚ) + 1) * lonStep w := by
  have hs : 0 < lonStep w := lonStep_pos hw
  set x : ℚ := (lon - w.min_lon) / lonStep w with hx
  have hx0 : 0 ≤ x := div_nonneg (by linarith) hs.le
  have hx4 : x ≤ 4 := by
    rw [hx, div_le_iff hs]
    have := four_lonStep w
    linarith
  have hpy : pyInt x = ⌊x⌋ := pyInt_of_nonneg hx0
  have hr : colFor w lon = min ⌊x⌋ 3 := by
    unfold colFor
    rw [← hx, hpy]
  have hxs : x * lonStep w = lon - w.min_lon := by
    field_simp [hx]
  have h0r : 0 ≤ min ⌊x⌋ 3 := le_min (Int.floor_nonneg.mpr hx0) (by norm_num)
  have h3r : min ⌊x⌋ 3 ≤ 3 := min_le_right _ _
  refine ⟨hr ▸ h0r, hr ▸ h3r, ?_, ?_⟩
  · rw [hr]
    have hxr : ((min ⌊x⌋ 3 : ℤ) : ℚ) ≤ x := by
      have h1' : ((min ⌊x⌋ 3 : ℤ) : ℚ) ≤ ((⌊x⌋ : ℤ) : ℚ) := by
        exact_mod_cast min_le_left _ _
      exact h1'.trans (Int.floor_le x)
    have := mul_le_mul_of_nonneg_right hxr hs.le
    rw [hxs] at this
    linarith
  · rw [hr]
    have hxr : x ≤ ((min ⌊x⌋ 3 : ℤ) : ℚ) + 1 := by
      by_cases hle : ⌊x⌋ ≤ 3
      · rw [min_eq_left hle]
        exact (Int.lt_floor_add_one x).le
      · rw [min_eq_right (le_of_not_le hle)]
        push_cast
        linarith
    have := mul_le_mul_of_nonneg_right hxr hs.le
    rw [hxs] at this
    linarith

/-- The selected child cell still contains the encoded point. -/
lemma child_mem {w : Window} {lat lon : ℚ} (hw : posW w) (h : memW w lat lon) :
    memW (childWindow w (rowFor w lat) (colFor w lon)) lat lon := by
  obtain ⟨h1, h2, h3, h4⟩ := h
  obtain ⟨hwa, hwo⟩ := hw
  obtain ⟨_, _, hr1, hr2⟩ := rowFor_spec w lat hwa h1 h2
  obtain ⟨_, _, hc1, hc2⟩ := colFor_spec w lon hwo h3 h4
  exact ⟨hr1, hr2, hc1, hc2⟩

/-- Any child window of a nondegenerate window is nondegenerate. -/
lemma child_posW {w : Window} (hw : posW w) (r c : ℤ) : posW (childWindow w r c) := by
  obtain ⟨hwa, hwo⟩ := hw
  have hs : 0 < latStep w := latStep_pos hwa
  have ht : 0 < lonStep w := lonStep_pos hwo
  constructor
  · show w.max_lat - ((r : ℚ) + 1) * latStep w < w.max_lat - (r : ℚ) * latStep w
    nlinarith
  · show w.min_lon + (c : ℚ) * lonStep w < w.min_lon + ((c : ℚ) + 1) * lonStep w
    nlinarith

/-- A child window with row/col in `[0, 3]` is contained in its parent. -/
lemma child_subW {w : Window} {r c : ℤ} (hsl : 0 ≤ latStep w) (hso : 0 ≤ lonStep w)
    (hr0 : 0 ≤ r) (hr3 : r ≤ 3) (hc0 : 0 ≤ c) (hc3 : c ≤ 3) :
    subW (childWindow w r c) w := by
  have h4l := four_latStep w
  have h4o := four_lonStep w
  have hrq0 : (0:ℚ) ≤ (r:ℚ) := by exact_mod_cast hr0
  have hrq3 : (r:ℚ) ≤ 3 := by exact_mod_cast hr3
  have hcq0 : (0:ℚ) ≤ (c:ℚ) := by exact_mod_cast hc0
  have hcq3 : (c:ℚ) ≤ 3 := by exact_mod_cast hc3
  refine ⟨?_, ?_, ?_, ?_⟩
  · show w.min_lat ≤ w.max_lat - ((r : ℚ) + 1) * latStep w
    nlinarith
  · show w.max_lat - (r : ℚ) * latStep w ≤ w.max_lat
    nlinarith
  · show w.min_lon ≤ w.min_lon + (c : ℚ) * lonStep w
    nlinarith
  · show w.min_lon + ((c : ℚ) + 1) * lonStep w ≤ w.max_lon
    nlinarith

lemma subW_trans {a b c : Window} (h1 : subW a b) (h2 : subW b c) : subW a c := by
  obtain ⟨x1, x2, x3, x4⟩ := h1
  obtain ⟨y1, y2, y3, y4⟩ := h2
  exact ⟨y1.trans x1, x2.trans y2, y3.trans x3, x4.trans y4⟩

lemma subW_refl (w : Window) : subW w w := ⟨le_refl _, le_refl _, le_refl _, le_refl _⟩

end Digipin

namespace Digipin

/-- Every grid label with row/col in `[0, 3]` is an alphabet character. -/
lemma labelAt_mem {r c : ℤ} (hr0 : 0 ≤ r) (hr3 : r ≤ 3) (hc0 : 0 ≤ c) (hc3 : c ≤ 3) :
    labelAt r c ∈ DIGIPIN_CHARS := by
  interval_cases r <;> interval_cases c <;> decide

/-- The reverse lookup `charToPosition` inverts the grid lookup `labelAt`
(certifying that `charToPosition` is the enumeration of `LABEL_GRID` built by
the source). -/
lemma charToPosition_labelAt {r c : ℤ} (hr0 : 0 ≤ r) (hr3 : r ≤ 3)
    (hc0 : 0 ≤ c) (hc3 : c ≤ 3) :
    charToPosition (labelAt r c) = some (r.toNat, c.toNat) := by
  interval_cases r <;> interval_cases c <;> decide

/-- Any entry of the reverse lookup table has row and col at most 3. -/
lemma charToPosition_le {ch : Char} {r c : ℕ} (h : charToPosition ch = some (r, c)) :
    r ≤ 3 ∧ c ≤ 3 := by
  unfold charToPosition at h
  split at h <;>
    first
      | exact Option.noConfusion h
      | (injection h with h2; injection h2 with ha hb; omega)

/-- Lemma: `decodeStep` applied to a grid label narrows to exactly the cell the label
names. -/
lemma decodeStep_labelAt {w : Window} {r c : ℤ} (hr0 : 0 ≤ r) (hr3 : r ≤ 3)
    (hc0 : 0 ≤ c) (hc3 : c ≤ 3) :
    decodeStep w (labelAt r c) = childWindow w r c := by
  unfold decodeStep
  rw [charToPosition_labelAt hr0 hr3 hc0 hc3]
  show childWindow w ((r.toNat : ℕ) : ℤ) ((c.toNat : ℕ) : ℤ) = childWindow w r c
  rw [Int.toNat_of_nonneg hr0, Int.toNat_of_nonneg hc0]

/-- Invariant of the `encode` loop: the running window always contains the
input point, stays nondegenerate, stays inside the starting window, and the
emitted characters number `n` and lie in the alphabet. -/
theorem encodeSteps_spec (n : ℕ) : ∀ (w : Window) (lat lon : ℚ), posW w → memW w lat lon →
    memW (encodeSteps n w lat lon).2 lat lon ∧
    posW (encodeSteps n w lat lon).2 ∧
    subW (encodeSteps n w lat lon).2 w ∧
    (encodeSteps n w lat lon).1.length = n ∧
    ∀ ch ∈ (encodeSteps n w lat lon).1, ch ∈ DIGIPIN_CHARS := by
  induction n with
  | zero =>
    intro w lat lon hw hm
    exact ⟨hm, hw, subW_refl w, rfl, by simp [encodeSteps]⟩
  | succ n ih =>
    intro w lat lon hw hm
    obtain ⟨hwa, hwo⟩ := hw
    obtain ⟨h1, h2, h3, h4⟩ := hm
    obtain ⟨hr0, hr3, _, _⟩ := rowFor_spec w lat hwa h1 h2
    obtain ⟨hc0, hc3, _, _⟩ := colFor_spec w lon hwo h3 h4
    have hcm := child_mem ⟨hwa, hwo⟩ ⟨h1, h2, h3, h4⟩
    have hcp := child_posW ⟨hwa, hwo⟩ (rowFor w lat) (colFor w lon)
    have hcs := child_subW (latStep_pos hwa).le (lonStep_pos hwo).le hr0 hr3 hc0 hc3
    obtain ⟨m1, p1, s1, l1, a1⟩ :=
      ih (childWindow w (rowFor w lat) (colFor w lon)) lat lon hcp hcm
    refine ⟨?_, ?_, ?_, ?_, ?_⟩
    · simpa [encodeSteps] using m1
    · simpa [encodeSteps] using p1
    · have := subW_trans s1 hcs
      simpa [encodeSteps] using this
    · simp [encodeSteps, l1]
    · intro ch hch
      simp only [encodeSteps, List.mem_cons] at hch
      rcases hch with h | h
      · rw [h]
        exact labelAt_mem hr0 hr3 hc0 hc3
      · exact a1 ch h

/-- Running the decode loop on the characters emitted by the encode loop
reproduces the final window of the encode loop. -/
theorem decode_encodeSteps (n : ℕ) : ∀ (w : Window) (lat lon : ℚ), posW w → memW w lat lon →
    decodeWindowFrom w (encodeSteps n w lat lon).1 = (encodeSteps n w lat lon).2 := by
  induction n with
  | zero =>
    intro w lat lon _ _
    rfl
  | succ n ih =>
    intro w lat lon hw hm
    obtain ⟨hwa, hwo⟩ := hw
    obtain ⟨h1, h2, h3, h4⟩ := hm
    obtain ⟨hr0, hr3, _, _⟩ := rowFor_spec w lat hwa h1 h2
    obtain ⟨hc0, hc3, _, _⟩ := colFor_spec w lon hwo h3 h4
    have hcm := child_mem ⟨hwa, hwo⟩ ⟨h1, h2, h3, h4⟩
    have hcp := child_posW ⟨hwa, hwo⟩ (rowFor w lat) (colFor w lon)
    have step : decodeStep w (labelAt (rowFor w lat) (colFor w lon))
        = childWindow w (rowFor w lat) (colFor w lon) :=
      decodeStep_labelAt hr0 hr3 hc0 hc3
    simp only [encodeSteps, decodeWindowFrom, List.foldl_cons]
    rw [show List.foldl decodeStep (decodeStep w (labelAt (rowFor w lat) (colFor w lon)))
          (encodeSteps n (childWindow w (rowFor w lat) (colFor w lon)) lat lon).1
        = decodeWindowFrom (decodeStep w (labelAt (rowFor w lat) (colFor w lon)))
          (encodeSteps n (childWindow w (rowFor w lat) (colFor w lon)) lat lon).1 from rfl]
    rw [step]
    exact ih _ lat lon hcp hcm

end Digipin

namespace Digipin

/-- A latitude strictly inside the band of row `r` is assigned row `r` by `encode`. -/
lemma rowFor_eq_of_strict {w : Window} {r : ℤ} {lat' : ℚ} (hw : w.min_lat < w.max_lat)
    (hr0 : 0 ≤ r) (hr3 : r ≤ 3)
    (hlo : w.max_lat - ((r : ℚ) + 1) * latStep w < lat')
    (hhi : lat' < w.max_lat - (r : ℚ) * latStep w) :
    rowFor w lat' = r := by
  have hs := latStep_pos hw
  set x : ℚ := (w.max_lat - lat') / latStep w with hx
  have hx1 : (r : ℚ) < x := by
    rw [hx, lt_div_iff hs]
    linarith
  have hx2 : x < (r : ℚ) + 1 := by
    rw [hx, div_lt_iff hs]
    linarith
  have hfl : ⌊x⌋ = r := by
    rw [Int.floor_eq_iff]
    constructor
    · exact hx1.le
    · push_cast
      exact hx2
  have hx0 : (0:ℚ) ≤ x := le_trans (by exact_mod_cast hr0) hx1.le
  unfold rowFor
  rw [← hx, pyInt_of_nonneg hx0, hfl]
  exact min_eq_left hr3

/-- A longitude strictly inside the band of column `c` is assigned column `c`. -/
lemma colFor_eq_of_strict {w : Window} {c : ℤ} {lon' : ℚ} (hw : w.min_lon < w.max_lon)
    (hc0 : 0 ≤ c) (hc3 : c ≤ 3)
    (hlo : w.min_lon + (c : ℚ) * lonStep w < lon')
    (hhi : lon' < w.min_lon + ((c : ℚ) + 1) * lonStep w) :
    colFor w lon' = c := by
  have hs := lonStep_pos hw
  set x : ℚ := (lon' - w.min_lon) / lonStep w with hx
  have hx1 : (c : ℚ) < x := by
    rw [hx, lt_div_iff hs]
    linarith
  have hx2 : x < (c : ℚ) + 1 := by
    rw [hx, div_lt_iff hs]
    linarith
  have hfl : ⌊x⌋ = c := by
    rw [Int.floor_eq_iff]
    constructor
    · exact hx1.le
    · push_cast
      exact hx2
  have hx0 : (0:ℚ) ≤ x := le_trans (by exact_mod_cast hc0) hx1.le
  unfold colFor
  rw [← hx, pyInt_of_nonneg hx0, hfl]
  exact min_eq_left hc3

/-- Determinism of the encode loop on the deepest cell: any point strictly
inside the final window of an encode run produces the same characters and the
same final window. -/
theorem encodeSteps_determined (n : ℕ) :
    ∀ (w : Window) (lat lon lat' lon' : ℚ), posW w → memW w lat lon →
    strictMemW (encodeSteps n w lat lon).2 lat' lon' →
    encodeSteps n w lat' lon' = encodeSteps n w lat lon := by
  induction n with
  | zero =>
    intro w lat lon lat' lon' _ _ _
    rfl
  | succ n ih =>
    intro w lat lon lat' lon' hw hm hst
    obtain ⟨hwa, hwo⟩ := hw
    obtain ⟨h1, h2, h3, h4⟩ := hm
    obtain ⟨hr0, hr3, _, _⟩ := rowFor_spec w lat hwa h1 h2
    obtain ⟨hc0, hc3, _, _⟩ := colFor_spec w lon hwo h3 h4
    have hcm := child_mem ⟨hwa, hwo⟩ ⟨h1, h2, h3, h4⟩
    have hcp := child_posW ⟨hwa, hwo⟩ (rowFor w lat) (colFor w lon)
    obtain ⟨_, _, hsub, _, _⟩ :=
      encodeSteps_spec n (childWindow w (rowFor w lat) (colFor w lon)) lat lon hcp hcm
    have hfin : (encodeSteps (n + 1) w lat lon).2
        = (encodeSteps n (childWindow w (rowFor w lat) (colFor w lon)) lat lon).2 := by
      simp [encodeSteps]
    rw [hfin] at hst
    obtain ⟨t1, t2, t3, t4⟩ := hst
    obtain ⟨u1, u2, u3, u4⟩ := hsub
    -- strict membership in the chosen child cell
    have hlo : w.max_lat - ((rowFor w lat : ℚ) + 1) * latStep w < lat' := lt_of_le_of_lt u1 t1
    have hhi : lat' < w.max_lat - (rowFor w lat : ℚ) * latStep w := lt_of_lt_of_le t2 u2
    have glo : w.min_lon + (colFor w lon : ℚ) * lonStep w < lon' := lt_of_le_of_lt u3 t3
    have ghi : lon' < w.min_lon + ((colFor w lon : ℚ) + 1) * lonStep w := lt_of_lt_of_le t4 u4
    have hrow : rowFor w lat' = rowFor w lat := rowFor_eq_of_strict hwa hr0 hr3 hlo hhi
    have hcol : colFor w lon' = colFor w lon := colFor_eq_of_strict hwo hc0 hc3 glo ghi
    have hrec : encodeSteps n (childWindow w (rowFor w lat) (colFor w lon)) lat' lon'
        = encodeSteps n (childWindow w (rowFor w lat) (colFor w lon)) lat lon :=
      ih _ lat lon lat' lon' hcp hcm ⟨t1, t2, t3, t4⟩
    simp only [encodeSteps]
    rw [hrow, hcol, hrec]

/-- The midpoint of a nondegenerate window lies strictly inside it. -/
lemma center_strictMem {w : Window} (hw : posW w) :
    strictMemW w ((w.min_lat + w.max_lat) / 2) ((w.min_lon + w.max_lon) / 2) := by
  obtain ⟨h1, h2⟩ := hw
  constructor
  · linarith
  constructor
  · linarith
  constructor
  · linarith
  · linarith

/-- The India window is nondegenerate. -/
lemma indiaWindow_posW : posW indiaWindow := by
  constructor <;> norm_num [indiaWindow, MIN_LAT, MAX_LAT, MIN_LON, MAX_LON]

/-- Lemma: `_is_within_bounds` agrees with membership in the India window. -/
lemma isWithinBounds_iff {lat lon : ℚ} :
    isWithinBounds lat lon = true ↔ memW indiaWindow lat lon := by
  unfold isWithinBounds memW indiaWindow
  simp

end Digipin

namespace Digipin

/-- ASCII uppercasing is idempotent. -/
lemma toUpper_toUpper (c : Char) : c.toUpper.toUpper = c.toUpper := by
  unfold Char.toUpper
  by_cases h : 97 ≤ c.toNat ∧ c.toNat ≤ 122
  · rw [if_pos h]
    have hv : (c.val.toNat - 32).isValidChar := by
      unfold Nat.isValidChar
      have h' := h
      unfold Char.toNat at h'
      omega
    have ht : (Char.ofNat (c.toNat - 32)).toNat = c.toNat - 32 := by
      simp only [Char.ofNat, Char.ofNatAux, Char.toNat]
      rw [dif_pos hv]
      rfl
    rw [if_neg]
    omega
  · rw [if_neg h, if_neg h]

/-- Alphabet characters are untouched by the cleaning pipeline. -/
lemma alphabet_clean_chars {c : Char} (h : c ∈ DIGIPIN_CHARS) :
    (c != '-') = true ∧ (c != ' ') = true ∧ pyIsSpaceChar c = false ∧ Char.toUpper c = c := by
  fin_cases h <;> decide

lemma dropWhile_eq_self_of_not {p : Char → Bool} :
    ∀ {l : List Char}, (∀ c ∈ l, p c = false) → l.dropWhile p = l
  | [], _ => rfl
  | c :: l, h => by
    rw [List.dropWhile_cons]
    rw [h c (List.mem_cons_self c l)]
    simp

/-- Lemma: `pyStrip` is the identity on whitespace-free strings. -/
lemma pyStrip_eq_self {l : List Char} (h : ∀ c ∈ l, pyIsSpaceChar c = false) :
    pyStrip l = l := by
  unfold pyStrip
  rw [dropWhile_eq_self_of_not h]
  rw [dropWhile_eq_self_of_not (fun c hc => h c (List.mem_reverse.mp hc))]
  exact List.reverse_reverse l

/-- Lemma: `_clean_digipin` is the identity on strings of alphabet characters. -/
lemma cleanDigipin_of_alphabet {s : List Char} (h : ∀ c ∈ s, c ∈ DIGIPIN_CHARS) :
    cleanDigipin s = s := by
  unfold cleanDigipin
  have h1 : s.filter (fun c => c != '-') = s :=
    List.filter_eq_self.mpr fun c hc => (alphabet_clean_chars (h c hc)).1
  rw [h1]
  have h2 : s.filter (fun c => c != ' ') = s :=
    List.filter_eq_self.mpr fun c hc => (alphabet_clean_chars (h c hc)).2.1
  rw [h2]
  rw [pyStrip_eq_self fun c hc => (alphabet_clean_chars (h c hc)).2.2.1]
  calc s.map Char.toUpper = s.map id := by
        apply List.map_congr_left
        intro c hc
        exact (alphabet_clean_chars (h c hc)).2.2.2
    _ = s := List.map_id s

/-- Lemma: `all` versus the emptiness of the complementary filter, as in
`validate` versus `validate_with_details`. -/
lemma all_iff_filter_not_isEmpty (p : Char → Bool) :
    ∀ l : List Char, l.all p = (l.filter fun c => !(p c)).isEmpty
  | [] => rfl
  | c :: l => by
    rw [List.all_cons, List.filter_cons]
    cases hp : p c
    · simp [hp]
    · simpa [hp] using all_iff_filter_not_isEmpty p l

/-- Lemma: `validate` agrees with the boolean part of `validate_with_details`. -/
lemma validate_eq_details (s : List Char) : validate s = (validateWithDetails s).1 := by
  by_cases he : s.isEmpty
  · have hs : s = [] := List.isEmpty_iff.mp he
    subst hs
    decide
  · by_cases hl : (cleanDigipin s).length = NUM_LEVELS
    · have hl' : ¬(cleanDigipin s).length ≠ NUM_LEVELS := by omega
      unfold validate validateWithDetails
      rw [if_neg he, if_neg hl', if_neg hl']
      rw [all_iff_filter_not_isEmpty]
      by_cases hi : (((cleanDigipin s).map Char.toUpper).filter
          fun c => !(DIGIPIN_CHARS.contains c)).isEmpty
      · rw [hi, if_pos hi]
      · rw [if_neg hi]
        simpa using hi
    · unfold validate validateWithDetails
      rw [if_neg he, if_pos hl, if_pos hl]

end Digipin

namespace Digipin

/-- Uppercasing fixes strings of alphabet characters. -/
lemma map_toUpper_of_alphabet {s : List Char} (h : ∀ c ∈ s, c ∈ DIGIPIN_CHARS) :
    s.map Char.toUpper = s := by
  calc s.map Char.toUpper = s.map id := by
        apply List.map_congr_left
        intro c hc
        exact (alphabet_clean_chars (h c hc)).2.2.2
    _ = s := List.map_id s

/-- The cleaning pipeline already produces uppercase output. -/
lemma map_toUpper_cleanDigipin (s : List Char) :
    (cleanDigipin s).map Char.toUpper = cleanDigipin s := by
  unfold cleanDigipin
  rw [List.map_map]
  apply List.map_congr_left
  intro c _
  exact toUpper_toUpper c

/-- Lemma: `validate_with_details` accepts any 10-character alphabet string. -/
lemma validateWithDetails_of_code {code : List Char} (hlen : code.length = NUM_LEVELS)
    (hmem : ∀ c ∈ code, c ∈ DIGIPIN_CHARS) :
    validateWithDetails code = (true, "Valid DIGIPIN") := by
  have hne : code.isEmpty = false := by
    cases code with
    | nil => simp [NUM_LEVELS] at hlen
    | cons a l => rfl
  have hclean : cleanDigipin code = code := cleanDigipin_of_alphabet hmem
  unfold validateWithDetails
  rw [if_neg (by simp [hne])]
  rw [hclean]
  rw [if_neg (by simp [hlen])]
  rw [map_toUpper_of_alphabet hmem]
  have hfilter : (code.filter fun c => !(DIGIPIN_CHARS.contains c)) = [] := by
    rw [List.filter_eq_nil_iff]
    intro c hc
    simp [hmem c hc]
  rw [hfilter]
  rfl

/-- Lemma: `decode` on a 10-character alphabet string succeeds and returns the
window produced by the narrowing loop. -/
lemma decode_of_code {code : List Char} (hlen : code.length = NUM_LEVELS)
    (hmem : ∀ c ∈ code, c ∈ DIGIPIN_CHARS) :
    decode code = ⟨code, formatDigipin code,
      ((decodeWindow code).min_lat + (decodeWindow code).max_lat) / 2,
      ((decodeWindow code).min_lon + (decodeWindow code).max_lon) / 2,
      some (decodeWindow code), true, none⟩ := by
  have hv := validateWithDetails_of_code hlen hmem
  have hclean : cleanDigipin code = code := cleanDigipin_of_alphabet hmem
  unfold decode
  rw [hv]
  rw [if_neg (by simp)]
  rw [hclean, map_toUpper_of_alphabet hmem]
  rfl

/-- Lemma: `decode` on a string failing validation returns the typed failure carrying
the detailed message. -/
lemma decode_invalid {s : List Char} (h : (validateWithDetails s).1 = false) :
    decode s = ⟨s, [], 0, 0, none, false, some (validateWithDetails s).2⟩ := by
  unfold decode
  rw [if_pos h]

/-- Lemma: `encode` on an in-bounds point, unfolded. -/
lemma encode_of_mem {lat lon : ℚ} (h : memW indiaWindow lat lon) :
    encode lat lon = ⟨(encodeSteps NUM_LEVELS indiaWindow lat lon).1,
      formatDigipin (encodeSteps NUM_LEVELS indiaWindow lat lon).1,
      ((encodeSteps NUM_LEVELS indiaWindow lat lon).2.min_lat
        + (encodeSteps NUM_LEVELS indiaWindow lat lon).2.max_lat) / 2,
      ((encodeSteps NUM_LEVELS indiaWindow lat lon).2.min_lon
        + (encodeSteps NUM_LEVELS indiaWindow lat lon).2.max_lon) / 2,
      some (encodeSteps NUM_LEVELS indiaWindow lat lon).2, true, none⟩ := by
  unfold encode
  rw [if_pos (isWithinBounds_iff.mpr h)]

/-- Lemma: `encode` on an out-of-bounds point, unfolded. -/
lemma encode_of_not_mem {lat lon : ℚ} (h : ¬memW indiaWindow lat lon) :
    encode lat lon = ⟨[], [], lat, lon, none, false,
      some "Coordinates outside India bounds"⟩ := by
  unfold encode
  rw [if_neg]
  intro hb
  exact h (isWithinBounds_iff.mp hb)

end Digipin

namespace Digipin

/-- Claim C1: round-trip stability.  For every coordinate inside the bounding
box `[2.5, 38.5] x [63.5, 99.5]`, encoding it to a 10-character code, decoding
that code to a cell, and re-encoding the cell center yields a code identical
to the original. -/
theorem claim_C1_roundtrip (lat lon : ℚ) (h : memW indiaWindow lat lon) :
    (encode lat lon).valid = true ∧
    (decode (encode lat lon).digipin).valid = true ∧
    (encode (decode (encode lat lon).digipin).center_lat
            (decode (encode lat lon).digipin).center_lon).digipin
      = (encode lat lon).digipin := by
  obtain ⟨hm, hp, hsub, hlen, hchars⟩ :=
    encodeSteps_spec NUM_LEVELS indiaWindow lat lon indiaWindow_posW h
  have hdecw : decodeWindow (encodeSteps NUM_LEVELS indiaWindow lat lon).1
      = (encodeSteps NUM_LEVELS indiaWindow lat lon).2 :=
    decode_encodeSteps NUM_LEVELS indiaWindow lat lon indiaWindow_posW h
  have hdec := decode_of_code hlen hchars
  rw [hdecw] at hdec
  have hcstrict := center_strictMem hp
  obtain ⟨a1, a2, a3, a4⟩ := hcstrict
  obtain ⟨b1, b2, b3, b4⟩ := hsub
  have hcmem : memW indiaWindow
      (((encodeSteps NUM_LEVELS indiaWindow lat lon).2.min_lat
        + (encodeSteps NUM_LEVELS indiaWindow lat lon).2.max_lat) / 2)
      (((encodeSteps NUM_LEVELS indiaWindow lat lon).2.min_lon
        + (encodeSteps NUM_LEVELS indiaWindow lat lon).2.max_lon) / 2) :=
    ⟨b1.trans a1.le, a2.le.trans b2, b3.trans a3.le, a4.le.trans b4⟩
  have hdet := encodeSteps_determined NUM_LEVELS indiaWindow lat lon
      (((encodeSteps NUM_LEVELS indiaWindow lat lon).2.min_lat
        + (encodeSteps NUM_LEVELS indiaWindow lat lon).2.max_lat) / 2)
      (((encodeSteps NUM_LEVELS indiaWindow lat lon).2.min_lon
        + (encodeSteps NUM_LEVELS indiaWindow lat lon).2.max_lon) / 2)
      indiaWindow_posW h ⟨a1, a2, a3, a4⟩
  have henc2 := encode_of_mem hcmem
  rw [hdet] at henc2
  refine ⟨?_, ?_, ?_⟩
  · rw [encode_of_mem h]
  · rw [encode_of_mem h]
    show (decode (encodeSteps NUM_LEVELS indiaWindow lat lon).1).valid = true
    rw [hdec]
  · rw [encode_of_mem h]
    show (encode (decode (encodeSteps NUM_LEVELS indiaWindow lat lon).1).center_lat
                 (decode (encodeSteps NUM_LEVELS indiaWindow lat lon).1).center_lon).digipin
        = (encodeSteps NUM_LEVELS indiaWindow lat lon).1
    rw [hdec]
    show (encode
        (((encodeSteps NUM_LEVELS indiaWindow lat lon).2.min_lat
          + (encodeSteps NUM_LEVELS indiaWindow lat lon).2.max_lat) / 2)
        (((encodeSteps NUM_LEVELS indiaWindow lat lon).2.min_lon
          + (encodeSteps NUM_LEVELS indiaWindow lat lon).2.max_lon) / 2)).digipin
        = (encodeSteps NUM_LEVELS indiaWindow lat lon).1
    rw [henc2]

/-- Witness for C1 at New Delhi-like coordinates `(28, 77)`. -/
theorem claim_C1_roundtrip_witness :
    memW indiaWindow 28 77 ∧
    ((encode 28 77).valid = true ∧
     (decode (encode 28 77).digipin).valid = true ∧
     (encode (decode (encode 28 77).digipin).center_lat
             (decode (encode 28 77).digipin).center_lon).digipin
       = (encode 28 77).digipin) :=
  ⟨by norm_num [memW, indiaWindow, MIN_LAT, MAX_LAT, MIN_LON, MAX_LON],
   claim_C1_roundtrip 28 77
     (by norm_num [memW, indiaWindow, MIN_LAT, MAX_LAT, MIN_LON, MAX_LON])⟩

/-- Claim C10: the successful result of `encode` has bounds containing the
input point. -/
theorem claim_C10_cell_contains_input (lat lon : ℚ) (h : memW indiaWindow lat lon) :
    ∃ w, (encode lat lon).bounds = some w ∧ memW w lat lon := by
  obtain ⟨hm, _, _, _, _⟩ :=
    encodeSteps_spec NUM_LEVELS indiaWindow lat lon indiaWindow_posW h
  refine ⟨(encodeSteps NUM_LEVELS indiaWindow lat lon).2, ?_, hm⟩
  rw [encode_of_mem h]

/-- Witness for C10 at `(19, 73)`. -/
theorem claim_C10_witness :
    memW indiaWindow 19 73 ∧
    ∃ w, (encode 19 73).bounds = some w ∧ memW w 19 73 :=
  ⟨by norm_num [memW, indiaWindow, MIN_LAT, MAX_LAT, MIN_LON, MAX_LON],
   claim_C10_cell_contains_input 19 73
     (by norm_num [memW, indiaWindow, MIN_LAT, MAX_LAT, MIN_LON, MAX_LON])⟩

/-- Claim C3: `encode` returns a typed out-of-bounds failure exactly when the
coordinate lies outside the rectangle, a successful 10-character alphabet code
for every in-bounds coordinate (boundary inclusive), and never clamps an
out-of-bounds input (no code, no bounds are produced there). -/
theorem claim_C3_out_of_bounds (lat lon : ℚ) :
    ((encode lat lon).valid = true ↔ memW indiaWindow lat lon) ∧
    (memW indiaWindow lat lon →
      (encode lat lon).digipin.length = 10 ∧
      (∀ c ∈ (encode lat lon).digipin, c ∈ DIGIPIN_CHARS) ∧
      (encode lat lon).error = none) ∧
    (¬memW indiaWindow lat lon →
      (encode lat lon).digipin = [] ∧
      (encode lat lon).bounds = none ∧
      (encode lat lon).error = some "Coordinates outside India bounds") := by
  by_cases h : memW indiaWindow lat lon
  · obtain ⟨_, _, _, hlen, hchars⟩ :=
      encodeSteps_spec NUM_LEVELS indiaWindow lat lon indiaWindow_posW h
    refine ⟨?_, fun _ => ⟨?_, ?_, ?_⟩, fun hc => absurd h hc⟩
    · rw [encode_of_mem h]
      simp [h]
    · rw [encode_of_mem h]
      exact hlen
    · rw [encode_of_mem h]
      exact hchars
    · rw [encode_of_mem h]
  · refine ⟨?_, fun hc => absurd hc h, fun _ => ⟨?_, ?_, ?_⟩⟩
    · rw [encode_of_not_mem h]
      simp [h]
    · rw [encode_of_not_mem h]
    · rw [encode_of_not_mem h]
    · rw [encode_of_not_mem h]

/-- Witness for C3: in-bounds success at `(10, 90)` and failure at `(50, 0)`. -/
theorem claim_C3_witness :
    (memW indiaWindow 10 90 ∧
      (encode 10 90).digipin.length = 10 ∧
      (∀ c ∈ (encode 10 90).digipin, c ∈ DIGIPIN_CHARS) ∧
      (encode 10 90).error = none) ∧
    (¬memW indiaWindow 50 0 ∧
      (encode 50 0).digipin = [] ∧
      (encode 50 0).bounds = none ∧
      (encode 50 0).error = some "Coordinates outside India bounds") :=
  ⟨⟨by norm_num [memW, indiaWindow, MIN_LAT, MAX_LAT, MIN_LON, MAX_LON],
    (claim_C3_out_of_bounds 10 90).2.1
      (by norm_num [memW, indiaWindow, MIN_LAT, MAX_LAT, MIN_LON, MAX_LON])⟩,
   ⟨by norm_num [memW, indiaWindow, MIN_LAT, MAX_LAT, MIN_LON, MAX_LON],
    (claim_C3_out_of_bounds 50 0).2.2
      (by norm_num [memW, indiaWindow, MIN_LAT, MAX_LAT, MIN_LON, MAX_LON])⟩⟩

/-- Claim C4: alphabet closure.  `validate` accepts exactly the strings whose
cleaned form (hyphens/whitespace removed, uppercased) has length 10 with every
character in the 16-symbol alphabet; `decode` fails exactly when `validate`
rejects, and then carries the detailed reason computed by
`validate_with_details` (wrong length, or the specific disallowed characters). -/
theorem claim_C4_alphabet_closure (s : List Char) :
    (validate s = true ↔
      ((cleanDigipin s).length = 10 ∧ ∀ c ∈ cleanDigipin s, c ∈ DIGIPIN_CHARS)) ∧
    ((decode s).valid = false ↔ validate s = false) ∧
    (validate s = false → (decode s).error = some (validateWithDetails s).2) := by
  have hvd := validate_eq_details s
  refine ⟨?_, ?_, ?_⟩
  · simp only [validate]
    rw [map_toUpper_cleanDigipin]
    constructor
    · intro hv
      by_cases hl : (cleanDigipin s).length ≠ NUM_LEVELS
      · rw [if_pos hl] at hv
        exact absurd hv (by simp)
      · rw [if_neg hl] at hv
        push_neg at hl
        refine ⟨hl, fun c hc => ?_⟩
        have := List.all_eq_true.mp hv c hc
        simpa using this
    · rintro ⟨hl, hmem⟩
      rw [if_neg (by simp [hl, NUM_LEVELS])]
      apply List.all_eq_true.mpr
      intro c hc
      simp [hmem c hc]
  · by_cases hb : (validateWithDetails s).1 = false
    · rw [decode_invalid hb]
      simp [hvd, hb]
    · have hbt : (validateWithDetails s).1 = true := by
        cases h2 : (validateWithDetails s).1
        · exact absurd h2 hb
        · rfl
      have hdv : (decode s).valid = true := by
        unfold decode
        rw [if_neg (by simp [hbt])]
      rw [hdv, hvd, hbt]
  · intro hv
    have hb : (validateWithDetails s).1 = false := by
      rw [← hvd]
      exact hv
    rw [decode_invalid hb]

/-- Witness for C4 at the invalid input `"AB"`. -/
theorem claim_C4_witness :
    validate ['A', 'B'] = false ∧
    (decode ['A', 'B']).error = some (validateWithDetails ['A', 'B']).2 :=
  ⟨by decide, (claim_C4_alphabet_closure ['A', 'B']).2.2 (by decide)⟩

end Digipin

namespace Digipin

/-- The first character of a successful encode is the level-0 grid label. -/
lemma encode_head {lat lon : ℚ} (h : memW indiaWindow lat lon) :
    (encode lat lon).digipin.head?
      = some (labelAt (rowFor indiaWindow lat) (colFor indiaWindow lon)) := by
  rw [encode_of_mem h]
  rfl

/-- Counterexample to claim C2 as stated: the in-bounds coordinate
`(29.5, 72.5)` lies exactly on the level-0 grid lines separating rows 0/1 and
columns 0/1, yet `encode` assigns it row 1 and column 1 (the lower-latitude,
higher-longitude cells), not row/col 0 as the claim asserts: the first emitted
character is `'3'` (= grid label of row 1, col 1), not `'C'` (row 0, col 1). -/
theorem claim_C2_counterexample :
    (59 / 2 : ℚ) = indiaWindow.max_lat - 1 * latStep indiaWindow ∧
    (145 / 2 : ℚ) = indiaWindow.min_lon + 1 * lonStep indiaWindow ∧
    memW indiaWindow (59 / 2) (145 / 2) ∧
    rowFor indiaWindow (59 / 2) = 1 ∧ rowFor indiaWindow (59 / 2) ≠ 0 ∧
    colFor indiaWindow (145 / 2) = 1 ∧ colFor indiaWindow (145 / 2) ≠ 0 ∧
    (encode (59 / 2) (145 / 2)).digipin.head? = some '3' ∧
    labelAt 1 1 = '3' ∧ labelAt 0 1 = 'C' ∧ ('3' : Char) ≠ 'C' := by
  have hmem : memW indiaWindow (59 / 2) (145 / 2) := by
    norm_num [memW, indiaWindow, MIN_LAT, MAX_LAT, MIN_LON, MAX_LON]
  have hrow : rowFor indiaWindow (59 / 2) = 1 := by
    norm_num [rowFor, pyInt, latStep, indiaWindow, MIN_LAT, MAX_LAT]
  have hcol : colFor indiaWindow (145 / 2) = 1 := by
    norm_num [colFor, pyInt, lonStep, indiaWindow, MIN_LON, MAX_LON]
  refine ⟨?_, ?_, hmem, hrow, ?_, hcol, ?_, ?_, by decide, by decide, by decide⟩
  · norm_num [indiaWindow, latStep, MIN_LAT, MAX_LAT]
  · norm_num [indiaWindow, lonStep, MIN_LON, MAX_LON]
  · rw [hrow]
    decide
  · rw [hcol]
    decide
  · rw [encode_head hmem, hrow, hcol]
    decide

/-- Amended claim C2: at an interior latitude grid line `max_lat - k*lat_step`
(`1 ≤ k ≤ 3`) of any nondegenerate window, `encode` assigns the boundary
point row `k`, i.e. the lower-latitude of the two adjacent cells; at an
interior longitude grid line `min_lon + k*lon_step` it assigns column `k`,
i.e. the higher-longitude of the two adjacent cells — deterministically at
every level, since every level applies `rowFor`/`colFor` to its own window. -/
theorem claim_C2_amended_tie_break (w : Window) (k : ℤ) (h1 : w.min_lat < w.max_lat)
    (h2 : w.min_lon < w.max_lon) (hk1 : 1 ≤ k) (hk3 : k ≤ 3) :
    rowFor w (w.max_lat - (k : ℚ) * latStep w) = k ∧
    colFor w (w.min_lon + (k : ℚ) * lonStep w) = k := by
  have hsl := latStep_pos h1
  have hso := lonStep_pos h2
  have hk0 : (0 : ℚ) ≤ (k : ℚ) := by
    have : (0 : ℤ) ≤ k := by omega
    exact_mod_cast this
  constructor
  · unfold rowFor
    have hx : (w.max_lat - (w.max_lat - (k : ℚ) * latStep w)) / latStep w = (k : ℚ) := by
      field_simp
    rw [hx, pyInt_of_nonneg hk0, Int.floor_intCast]
    exact min_eq_left hk3
  · unfold colFor
    have hx : (w.min_lon + (k : ℚ) * lonStep w - w.min_lon) / lonStep w = (k : ℚ) := by
      field_simp
    rw [hx, pyInt_of_nonneg hk0, Int.floor_intCast]
    exact min_eq_left hk3

/-- Witness for the amended C2 at the India window, `k = 1`. -/
theorem claim_C2_witness :
    (indiaWindow.min_lat < indiaWindow.max_lat ∧
     indiaWindow.min_lon < indiaWindow.max_lon ∧
     (1 : ℤ) ≤ 1 ∧ (1 : ℤ) ≤ 3) ∧
    (rowFor indiaWindow (indiaWindow.max_lat - ((1 : ℤ) : ℚ) * latStep indiaWindow) = 1 ∧
     colFor indiaWindow (indiaWindow.min_lon + ((1 : ℤ) : ℚ) * lonStep indiaWindow) = 1) :=
  ⟨⟨by norm_num [indiaWindow, MIN_LAT, MAX_LAT],
    by norm_num [indiaWindow, MIN_LON, MAX_LON], le_refl 1, by norm_num⟩,
   claim_C2_amended_tie_break indiaWindow 1
     (by norm_num [indiaWindow, MIN_LAT, MAX_LAT])
     (by norm_num [indiaWindow, MIN_LON, MAX_LON])
     (le_refl 1) (by norm_num)⟩

/-- Alphabet characters always resolve in the reverse lookup, with row and
column at most 3. -/
lemma charToPosition_of_mem {ch : Char} (hmem : ch ∈ DIGIPIN_CHARS) :
    ∃ r c, charToPosition ch = some (r, c) ∧ r ≤ 3 ∧ c ≤ 3 := by
  fin_cases hmem <;> exact ⟨_, _, rfl, by norm_num, by norm_num⟩

/-- One decode step on an alphabet character narrows within the window. -/
lemma decodeStep_sub {w : Window} {ch : Char} (hmem : ch ∈ DIGIPIN_CHARS)
    (hla : 0 ≤ w.max_lat - w.min_lat) (hlo : 0 ≤ w.max_lon - w.min_lon) :
    subW (decodeStep w ch) w := by
  obtain ⟨r, c, hrc, hr3, hc3⟩ := charToPosition_of_mem hmem
  unfold decodeStep
  rw [hrc]
  exact child_subW (div_nonneg hla (by norm_num)) (div_nonneg hlo (by norm_num))
    (Int.ofNat_nonneg r) (by exact_mod_cast hr3) (Int.ofNat_nonneg c) (by exact_mod_cast hc3)

/-- One decode step on an alphabet character quarters both spans exactly. -/
lemma decodeStep_span {w : Window} {ch : Char} (hmem : ch ∈ DIGIPIN_CHARS) :
    (decodeStep w ch).max_lat - (decodeStep w ch).min_lat = (w.max_lat - w.min_lat) / 4 ∧
    (decodeStep w ch).max_lon - (decodeStep w ch).min_lon = (w.max_lon - w.min_lon) / 4 := by
  obtain ⟨r, c, hrc, _, _⟩ := charToPosition_of_mem hmem
  unfold decodeStep
  rw [hrc]
  constructor
  · show w.max_lat - ((r : ℤ) : ℚ) * latStep w
        - (w.max_lat - (((r : ℤ) : ℚ) + 1) * latStep w) = (w.max_lat - w.min_lat) / 4
    unfold latStep
    ring
  · show w.min_lon + (((c : ℤ) : ℚ) + 1) * lonStep w
        - (w.min_lon + ((c : ℤ) : ℚ) * lonStep w) = (w.max_lon - w.min_lon) / 4
    unfold lonStep
    ring

/-- The decode loop preserves nonnegativity of both spans (for any characters,
valid or not: unknown characters leave the window unchanged). -/
lemma decodeWindowFrom_nonneg :
    ∀ (cs : List Char) (w : Window), 0 ≤ w.max_lat - w.min_lat → 0 ≤ w.max_lon - w.min_lon →
    0 ≤ (decodeWindowFrom w cs).max_lat - (decodeWindowFrom w cs).min_lat ∧
    0 ≤ (decodeWindowFrom w cs).max_lon - (decodeWindowFrom w cs).min_lon
  | [], w, hla, hlo => ⟨hla, hlo⟩
  | ch :: cs, w, hla, hlo => by
    have hstep : 0 ≤ (decodeStep w ch).max_lat - (decodeStep w ch).min_lat ∧
        0 ≤ (decodeStep w ch).max_lon - (decodeStep w ch).min_lon := by
      unfold decodeStep
      cases hrc : charToPosition ch with
      | none => exact ⟨hla, hlo⟩
      | some rc =>
        obtain ⟨r, c⟩ := rc
        constructor
        · show 0 ≤ w.max_lat - ((r : ℤ) : ℚ) * latStep w
              - (w.max_lat - (((r : ℤ) : ℚ) + 1) * latStep w)
          have : 0 ≤ latStep w := div_nonneg hla (by norm_num)
          nlinarith
        · show 0 ≤ w.min_lon + (((c : ℤ) : ℚ) + 1) * lonStep w
              - (w.min_lon + ((c : ℤ) : ℚ) * lonStep w)
          have : 0 ≤ lonStep w := div_nonneg hlo (by norm_num)
          nlinarith
    exact decodeWindowFrom_nonneg cs (decodeStep w ch) hstep.1 hstep.2

/-- Claim C8: monotonic containment.  One step of the decode window-narrowing
loop on an alphabet character produces a sub-window fully contained in the
previous window with both spans exactly one quarter of the previous spans;
consequently the cell bounds of a code contain the cell bounds of any code
extending it by one more character. -/
theorem claim_C8_monotonic_containment :
    (∀ (w : Window) (ch : Char), ch ∈ DIGIPIN_CHARS →
      0 ≤ w.max_lat - w.min_lat → 0 ≤ w.max_lon - w.min_lon →
      subW (decodeStep w ch) w ∧
      (decodeStep w ch).max_lat - (decodeStep w ch).min_lat
        = (w.max_lat - w.min_lat) / 4 ∧
      (decodeStep w ch).max_lon - (decodeStep w ch).min_lon
        = (w.max_lon - w.min_lon) / 4) ∧
    (∀ (cs : List Char) (ch : Char), ch ∈ DIGIPIN_CHARS →
      subW (decodeWindow (cs ++ [ch])) (decodeWindow cs)) := by
  constructor
  · intro w ch hmem hla hlo
    exact ⟨decodeStep_sub hmem hla hlo, (decodeStep_span hmem).1, (decodeStep_span hmem).2⟩
  · intro cs ch hmem
    have hnn := decodeWindowFrom_nonneg cs indiaWindow
      (by norm_num [indiaWindow, MIN_LAT, MAX_LAT])
      (by norm_num [indiaWindow, MIN_LON, MAX_LON])
    have happ : decodeWindow (cs ++ [ch]) = decodeStep (decodeWindow cs) ch := by
      unfold decodeWindow decodeWindowFrom
      rw [List.foldl_append]
      rfl
    rw [happ]
    exact decodeStep_sub hmem hnn.1 hnn.2

/-- Witness for C8 with the India window, character `'F'`, and the extension
`"F" → "FC"`. -/
theorem claim_C8_witness :
    ('F' ∈ DIGIPIN_CHARS ∧
     (0 : ℚ) ≤ indiaWindow.max_lat - indiaWindow.min_lat ∧
     (0 : ℚ) ≤ indiaWindow.max_lon - indiaWindow.min_lon ∧
     'C' ∈ DIGIPIN_CHARS) ∧
    subW (decodeStep indiaWindow 'F') indiaWindow ∧
    subW (decodeWindow (['F'] ++ ['C'])) (decodeWindow ['F']) :=
  ⟨⟨by decide, by norm_num [indiaWindow, MIN_LAT, MAX_LAT],
    by norm_num [indiaWindow, MIN_LON, MAX_LON], by decide⟩,
   (claim_C8_monotonic_containment.1 indiaWindow 'F' (by decide)
     (by norm_num [indiaWindow, MIN_LAT, MAX_LAT])
     (by norm_num [indiaWindow, MIN_LON, MAX_LON])).1,
   claim_C8_monotonic_containment.2 ['F'] 'C' (by decide)⟩

end Digipin

namespace ConfidenceScore

open Classical

/-- Source: `DeliveryStatus` enum from `confidence_score.py`. -/
inductive DeliveryStatus where
  | DELIVERED
  | DELIVERED_WITH_DIFFICULTY
  | FAILED
  | PENDING
deriving DecidableEq

/-- Source: `DELIVERY_POINTS`: points per delivery status (`PENDING` maps to `None`). -/
def DELIVERY_POINTS : DeliveryStatus → Option ℝ
  | .DELIVERED => some 100
  | .DELIVERED_WITH_DIFFICULTY => some 50
  | .FAILED => some 0
  | .PENDING => none

/-- Source: `DeliveryRecord` dataclass.  `datetime` timestamps are modelled as
rational days since an arbitrary epoch. -/
structure DeliveryRecord where
  id : String
  timestamp : ℚ
  status : DeliveryStatus
  actual_lat : Option ℚ := none
  actual_lon : Option ℚ := none
  ease_rating : Option ℤ := none
  notes : Option String := none

/-- Source: `PhysicalVerification` dataclass. -/
structure PhysicalVerification where
  id : String
  agent_id : String
  timestamp : ℚ
  verified : Bool
  quality_score : ℝ
  evidence_type : String
  gps_accuracy : ℝ
  notes : Option String := none

/-- Source: `AddressData` dataclass. -/
structure AddressData where
  address_id : String
  stated_lat : ℚ
  stated_lon : ℚ
  created_at : ℚ
  deliveries : List DeliveryRecord := []
  verifications : List PhysicalVerification := []
  last_updated : Option ℚ := none

/-- Source: `ScoreComponent` dataclass (the display-only `description` string is not
modelled). -/
structure ScoreComponent where
  name : String
  raw_value : ℝ
  weighted_value : ℝ
  weight : ℝ
  data_points : ℕ

/-- The weights dict, with its four fixed keys. -/
structure Weights where
  delivery_success : ℝ
  spatial_consistency : ℝ
  temporal_freshness : ℝ
  physical_verification : ℝ

/-- Source: `WEIGHTS`: the default component weights. -/
def WEIGHTS : Weights := ⟨0.30, 0.30, 0.20, 0.20⟩

/-- Source: `sum(self.weights.values())`. -/
def Weights.total (w : Weights) : ℝ :=
  w.delivery_success + w.spatial_consistency + w.temporal_freshness + w.physical_verification

/-- Source: `DEFAULT_HALF_LIFE_DAYS = 180`. -/
def DEFAULT_HALF_LIFE_DAYS : ℝ := 180

/-- Source: `DEFAULT_REFERENCE_DISTANCE = 50`. -/
def DEFAULT_REFERENCE_DISTANCE : ℝ := 50

/-- Source: `GRADE_THRESHOLDS`: `(threshold, grade, description)` rows, top down. -/
def GRADE_THRESHOLDS : List (ℝ × String × String) :=
  [(90, "A+", "Excellent - Highly Reliable"),
   (80, "A", "Very Good - Reliable"),
   (70, "B", "Good - Mostly Reliable"),
   (60, "C", "Fair - Moderately Reliable"),
   (50, "D", "Poor - Low Reliability"),
   (0, "F", "Fail - Unreliable")]

/-- The scanning loop of `_get_grade`: first row whose threshold the score
meets wins; fallback `('F', 'Fail - Unreliable')`. -/
noncomputable def getGradeAux : List (ℝ × String × String) → ℝ → String × String
  | [], _ => ("F", "Fail - Unreliable")
  | (t, g, d) :: rest, score => if score ≥ t then (g, d) else getGradeAux rest score

/-- Source: `_get_grade` in `confidence_score.py`. -/
noncomputable def getGrade (score : ℝ) : String × String := getGradeAux GRADE_THRESHOLDS score

/-- The constructed scorer state (`ConfidenceScoreCalculator.__init__`
attributes; `lambda_decay = ln 2 / half_life_days`). -/
structure Calculator where
  weights : Weights
  half_life_days : ℝ
  reference_distance : ℝ
  lambda_decay : ℝ

/-- Source: `ConfidenceScoreCalculator.__init__`: stores the parameters, then
validates that the weights sum to 1.0 within `0.001`, raising `ValueError`
otherwise.  (The raised exception is modelled as `Except.error`; the numeric
rendering of the offending sum inside the message is not modelled.) -/
noncomputable def mkCalculator (weights : Weights) (half_life_days reference_distance : ℝ) :
    Except String Calculator :=
  let c : Calculator := ⟨weights, half_life_days, reference_distance,
    Real.log 2 / half_life_days⟩
  if |weights.total - 1| > 0.001 then Except.error "Weights must sum to 1.0"
  else Except.ok c

/-- The calculator built with all defaults. -/
noncomputable def defaultCalculator : Calculator :=
  ⟨WEIGHTS, DEFAULT_HALF_LIFE_DAYS, DEFAULT_REFERENCE_DISTANCE,
   Real.log 2 / DEFAULT_HALF_LIFE_DAYS⟩

/-- The value/data-point pair returned by each sub-calculator (the dicts
`value` / `data_points` entries; the display-only text entries are omitted). -/
structure ComponentValue where
  value : ℝ
  data_points : ℕ

/-- Python `math.atan2`. -/
noncomputable def arctan2 (y x : ℝ) : ℝ :=
  if 0 < x then Real.arctan (y / x)
  else if x < 0 then
    (if 0 ≤ y then Real.arctan (y / x) + Real.pi else Real.arctan (y / x) - Real.pi)
  else
    (if 0 < y then Real.pi / 2 else if y < 0 then -(Real.pi / 2) else 0)

/-- Source: `_haversine_distance` in `confidence_score.py`. -/
noncomputable def haversineDistance (lat1 lon1 lat2 lon2 : ℝ) : ℝ :=
  let R : ℝ := 6371000
  let lat1_rad := lat1 * Real.pi / 180
  let lat2_rad := lat2 * Real.pi / 180
  let delta_lat := (lat2 - lat1) * Real.pi / 180
  let delta_lon := (lon2 - lon1) * Real.pi / 180
  let a := Real.sin (delta_lat / 2) ^ 2
    + Real.cos lat1_rad * Real.cos lat2_rad * Real.sin (delta_lon / 2) ^ 2
  let c := 2 * arctan2 (Real.sqrt a) (Real.sqrt (1 - a))
  R * c

/-- Source: `_calculate_delivery_success`. -/
noncomputable def calculateDeliverySuccess (deliveries : List DeliveryRecord) : ComponentValue :=
  let completed := deliveries.filter fun d => d.status != DeliveryStatus.PENDING
  if completed.isEmpty then ⟨0, 0⟩
  else
    let total_points : ℝ := (completed.map fun d =>
      match DELIVERY_POINTS d.status with
      | some p => p
      | none => 0).sum
    let max_possible : ℝ := (completed.length : ℝ) * 100
    if max_possible > 0 then ⟨total_points / max_possible, completed.length⟩
    else ⟨0, completed.length⟩

/-- Source: `_calculate_spatial_consistency`. -/
noncomputable def calculateSpatialConsistency (c : Calculator)
    (deliveries : List DeliveryRecord) (stated_lat stated_lon : ℚ) : ComponentValue :=
  let with_coords := deliveries.filter fun d => d.actual_lat.isSome && d.actual_lon.isSome
  if with_coords.isEmpty then ⟨0, 0⟩
  else
    let distances := with_coords.map fun d =>
      haversineDistance (stated_lat : ℝ) (stated_lon : ℝ)
        ((d.actual_lat.getD 0 : ℚ) : ℝ) ((d.actual_lon.getD 0 : ℚ) : ℝ)
    let avg_distance := distances.sum / (distances.length : ℝ)
    ⟨Real.exp (-((avg_distance / c.reference_distance) ^ 2)), with_coords.length⟩

/-- The scan for the most recent successful event in
`_calculate_temporal_freshness`: deliveries with status DELIVERED or
DELIVERED_WITH_DIFFICULTY, then verifications with `verified = true`;
`>` comparison keeps the first of equal timestamps. -/
def lastEventDate (deliveries : List DeliveryRecord)
    (verifications : List PhysicalVerification) : Option ℚ :=
  let d1 := deliveries.foldl (fun acc d =>
    if d.status = DeliveryStatus.DELIVERED ∨
        d.status = DeliveryStatus.DELIVERED_WITH_DIFFICULTY then
      match acc with
      | none => some d.timestamp
      | some t => if d.timestamp > t then some d.timestamp else some t
    else acc) none
  verifications.foldl (fun acc v =>
    if v.verified then
      match acc with
      | none => some v.timestamp
      | some t => if v.timestamp > t then some v.timestamp else some t
    else acc) d1

/-- Source: `timedelta.days` of a rational day difference: floor. -/
def tdDays (x : ℚ) : ℤ := ⌊x⌋

/-- Source: `_calculate_temporal_freshness` (note the `max(0, days_since)` guard for
future-dated events). -/
noncomputable def calculateTemporalFreshness (c : Calculator)
    (deliveries : List DeliveryRecord) (verifications : List PhysicalVerification)
    (as_of_date : ℚ) : ComponentValue :=
  match lastEventDate deliveries verifications with
  | none => ⟨0, 0⟩
  | some t =>
    let days_since : ℤ := max 0 (tdDays (as_of_date - t))
    ⟨Real.exp (-(c.lambda_decay * (days_since : ℝ))), 1⟩

/-- Python `max(verified_list, key=lambda v: v.timestamp)`: first maximal
element (later elements replace only when strictly greater). -/
def maxByTimestamp (v : PhysicalVerification) :
    List PhysicalVerification → PhysicalVerification
  | [] => v
  | w :: rest => maxByTimestamp (if w.timestamp > v.timestamp then w else v) rest

/-- Source: `_calculate_physical_verification` (note: no `max(0, ...)` guard on
`days_since` here, unlike `_calculate_temporal_freshness`). -/
noncomputable def calculatePhysicalVerification (c : Calculator)
    (verifications : List PhysicalVerification) (as_of_date : ℚ) : ComponentValue :=
  if verifications.isEmpty then ⟨0.1, 0⟩
  else
    match verifications.filter (fun v => v.verified) with
    | [] => ⟨0.1, verifications.length⟩
    | v :: rest =>
      let latest := maxByTimestamp v rest
      let days_since : ℤ := tdDays (as_of_date - latest.timestamp)
      let freshness_factor := Real.exp (-(c.lambda_decay * (days_since : ℝ)))
      ⟨latest.quality_score * freshness_factor, (v :: rest).length⟩

/-- Python `round(x, 2)` on a real value: scale by 100, round half to even,
unscale. -/
noncomputable def pyRound2 (x : ℝ) : ℝ :=
  let y := x * 100
  let f := ⌊y⌋
  let r := y - (f : ℝ)
  let n : ℤ := if r < 1 / 2 then f else if 1 / 2 < r then f + 1
    else if Even f then f else f + 1
  (n : ℝ) / 100

/-- The `coverage` dict of `calculate`. -/
structure Coverage where
  has_deliveries : Bool
  has_coordinates : Bool
  has_verifications : Bool
  is_recent : Bool

/-- Source: `ConfidenceResult` dataclass; the `components` dict has exactly the four
fixed keys, modelled as four fields. -/
structure ConfidenceResult where
  score : ℝ
  grade : String
  grade_description : String
  delivery_success : ScoreComponent
  spatial_consistency : ScoreComponent
  temporal_freshness : ScoreComponent
  physical_verification : ScoreComponent
  computed_at : ℚ
  coverage : Coverage
  recommendations : List String

/-- Source: `_generate_recommendations`: appends, in source order, the lines whose
trigger holds. -/
noncomputable def generateRecommendations (ds sc tf pv : ScoreComponent)
    (coverage : Coverage) : List String :=
  (if ds.raw_value < 0.7 then ["Improve delivery success by validating address details"] else [])
  ++ (if sc.raw_value < 0.7 then ["Address location may need correction - high delivery variance"] else [])
  ++ (if tf.raw_value < 0.5 then ["Address data is stale - schedule re-verification"] else [])
  ++ (if pv.raw_value < 0.5 then ["Request physical verification by field agent"] else [])
  ++ (if !coverage.has_deliveries then ["No delivery history - confidence score based on limited data"] else [])
  ++ (if !coverage.has_verifications then ["No physical verification - consider agent verification"] else [])

/-- Source: `ConfidenceScoreCalculator.calculate`. -/
noncomputable def Calculator.calculate (c : Calculator) (address : AddressData)
    (as_of_date : ℚ) : ConfidenceResult :=
  let dsr := calculateDeliverySuccess address.deliveries
  let sc := calculateSpatialConsistency c address.deliveries address.stated_lat address.stated_lon
  let tf := calculateTemporalFreshness c address.deliveries address.verifications as_of_date
  let pvs := calculatePhysicalVerification c address.verifications as_of_date
  let comp_ds : ScoreComponent := ⟨"Delivery Success Rate", dsr.value,
    dsr.value * c.weights.delivery_success, c.weights.delivery_success, dsr.data_points⟩
  let comp_sc : ScoreComponent := ⟨"Spatial Consistency", sc.value,
    sc.value * c.weights.spatial_consistency, c.weights.spatial_consistency, sc.data_points⟩
  let comp_tf : ScoreComponent := ⟨"Temporal Freshness", tf.value,
    tf.value * c.weights.temporal_freshness, c.weights.temporal_freshness, tf.data_points⟩
  let comp_pv : ScoreComponent := ⟨"Physical Verification", pvs.value,
    pvs.value * c.weights.physical_verification, c.weights.physical_verification, pvs.data_points⟩
  let total_weighted := comp_ds.weighted_value + comp_sc.weighted_value
    + comp_tf.weighted_value + comp_pv.weighted_value
  let score := max 0 (min 100 (pyRound2 (total_weighted * 100)))
  let gd := getGrade score
  let coverage : Coverage := ⟨!address.deliveries.isEmpty,
    address.deliveries.any (fun d => d.actual_lat.isSome && d.actual_lon.isSome),
    !address.verifications.isEmpty,
    if tf.value > 0.5 then true else false⟩
  ⟨score, gd.1, gd.2, comp_ds, comp_sc, comp_tf, comp_pv, as_of_date, coverage,
   generateRecommendations comp_ds comp_sc comp_tf comp_pv coverage⟩

end ConfidenceScore

namespace ConfidenceScore

/-- The DSR component of a result is the delivery-success sub-calculator. -/
lemma calculate_ds_raw (c : Calculator) (a : AddressData) (t : ℚ) :
    (c.calculate a t).delivery_success.raw_value
      = (calculateDeliverySuccess a.deliveries).value := rfl

lemma calculate_sc_raw (c : Calculator) (a : AddressData) (t : ℚ) :
    (c.calculate a t).spatial_consistency.raw_value
      = (calculateSpatialConsistency c a.deliveries a.stated_lat a.stated_lon).value := rfl

lemma calculate_tf_raw (c : Calculator) (a : AddressData) (t : ℚ) :
    (c.calculate a t).temporal_freshness.raw_value
      = (calculateTemporalFreshness c a.deliveries a.verifications t).value := rfl

lemma calculate_pv_raw (c : Calculator) (a : AddressData) (t : ℚ) :
    (c.calculate a t).physical_verification.raw_value
      = (calculatePhysicalVerification c a.verifications t).value := rfl

/-- The final score, spelled out: clamped rounded weighted combination. -/
lemma calculate_score_eq (c : Calculator) (a : AddressData) (t : ℚ) :
    (c.calculate a t).score = max 0 (min 100 (pyRound2 ((
      (calculateDeliverySuccess a.deliveries).value * c.weights.delivery_success
      + (calculateSpatialConsistency c a.deliveries a.stated_lat a.stated_lon).value
          * c.weights.spatial_consistency
      + (calculateTemporalFreshness c a.deliveries a.verifications t).value
          * c.weights.temporal_freshness
      + (calculatePhysicalVerification c a.verifications t).value
          * c.weights.physical_verification) * 100))) := rfl

/-- The grade is computed from the final score by the threshold scan. -/
lemma calculate_grade_eq (c : Calculator) (a : AddressData) (t : ℚ) :
    (c.calculate a t).grade = (getGrade (c.calculate a t).score).1 := rfl

/-- The recommendation list, spelled out. -/
lemma calculate_recs_eq (c : Calculator) (a : AddressData) (t : ℚ) :
    (c.calculate a t).recommendations =
      generateRecommendations
        ((c.calculate a t).delivery_success)
        ((c.calculate a t).spatial_consistency)
        ((c.calculate a t).temporal_freshness)
        ((c.calculate a t).physical_verification)
        ((c.calculate a t).coverage) := rfl

lemma calculateDeliverySuccess_nil : calculateDeliverySuccess [] = ⟨0, 0⟩ := rfl

lemma calculateSpatialConsistency_nil (c : Calculator) (la lo : ℚ) :
    calculateSpatialConsistency c [] la lo = ⟨0, 0⟩ := rfl

lemma calculateTemporalFreshness_nil (c : Calculator) (t : ℚ) :
    calculateTemporalFreshness c [] [] t = ⟨0, 0⟩ := rfl

lemma calculatePhysicalVerification_nil (c : Calculator) (t : ℚ) :
    calculatePhysicalVerification c [] t = ⟨0.1, 0⟩ := rfl

/-- Source: `round(2.0, 2) = 2.0`. -/
lemma pyRound2_two : pyRound2 2 = 2 := by
  simp only [pyRound2]
  have h1 : ((2 : ℝ) * 100) = ((200 : ℤ) : ℝ) := by norm_num
  rw [h1, Int.floor_intCast]
  rw [if_pos (by norm_num)]
  norm_num

/-- The threshold scan grades a score of 2 as `F`. -/
lemma getGrade_two : getGrade 2 = ("F", "Fail - Unreliable") := by
  unfold getGrade GRADE_THRESHOLDS
  rw [getGradeAux, if_neg (by norm_num)]
  rw [getGradeAux, if_neg (by norm_num)]
  rw [getGradeAux, if_neg (by norm_num)]
  rw [getGradeAux, if_neg (by norm_num)]
  rw [getGradeAux, if_neg (by norm_num)]
  rw [getGradeAux, if_pos (by norm_num)]

end ConfidenceScore

namespace ConfidenceScore

/-- Claim C6: scoring an address with empty deliveries and empty verifications
under the default weights yields `DSR = 0`, `SC = 0`, `TF = 0`, `PVS = 0.1`, a
final score of exactly `2.0`, grade `"F"`, and a recommendation list holding
all six trigger strings in the documented order. -/
theorem claim_C6_empty_history (address : AddressData) (as_of : ℚ)
    (hd : address.deliveries = []) (hv : address.verifications = []) :
    (defaultCalculator.calculate address as_of).delivery_success.raw_value = 0 ∧
    (defaultCalculator.calculate address as_of).spatial_consistency.raw_value = 0 ∧
    (defaultCalculator.calculate address as_of).temporal_freshness.raw_value = 0 ∧
    (defaultCalculator.calculate address as_of).physical_verification.raw_value = 0.1 ∧
    (defaultCalculator.calculate address as_of).score = 2 ∧
    (defaultCalculator.calculate address as_of).grade = "F" ∧
    (defaultCalculator.calculate address as_of).recommendations =
      ["Improve delivery success by validating address details",
       "Address location may need correction - high delivery variance",
       "Address data is stale - schedule re-verification",
       "Request physical verification by field agent",
       "No delivery history - confidence score based on limited data",
       "No physical verification - consider agent verification"] := by
  have hds0 : (defaultCalculator.calculate address as_of).delivery_success.raw_value = 0 := by
    rw [calculate_ds_raw, hd, calculateDeliverySuccess_nil]
  have hsc0 : (defaultCalculator.calculate address as_of).spatial_consistency.raw_value = 0 := by
    rw [calculate_sc_raw, hd, calculateSpatialConsistency_nil]
  have htf0 : (defaultCalculator.calculate address as_of).temporal_freshness.raw_value = 0 := by
    rw [calculate_tf_raw, hd, hv, calculateTemporalFreshness_nil]
  have hpv0 : (defaultCalculator.calculate address as_of).physical_verification.raw_value
      = 0.1 := by
    rw [calculate_pv_raw, hv, calculatePhysicalVerification_nil]
  have hscore : (defaultCalculator.calculate address as_of).score = 2 := by
    rw [calculate_score_eq, hd, hv, calculateDeliverySuccess_nil,
      calculateSpatialConsistency_nil, calculateTemporalFreshness_nil,
      calculatePhysicalVerification_nil]
    have ha : (((⟨0, 0⟩ : ComponentValue)).value * defaultCalculator.weights.delivery_success
        + ((⟨0, 0⟩ : ComponentValue)).value * defaultCalculator.weights.spatial_consistency
        + ((⟨0, 0⟩ : ComponentValue)).value * defaultCalculator.weights.temporal_freshness
        + ((⟨0.1, 0⟩ : ComponentValue)).value * defaultCalculator.weights.physical_verification)
        * 100 = 2 := by
      norm_num [defaultCalculator, WEIGHTS]
    rw [ha, pyRound2_two]
    rw [min_eq_right (by norm_num : (2:ℝ) ≤ 100)]
    rw [max_eq_right (by norm_num : (0:ℝ) ≤ 2)]
  have hcovd : (defaultCalculator.calculate address as_of).coverage.has_deliveries = false := by
    show (!address.deliveries.isEmpty) = false
    rw [hd]
    rfl
  have hcovv : (defaultCalculator.calculate address as_of).coverage.has_verifications
      = false := by
    show (!address.verifications.isEmpty) = false
    rw [hv]
    rfl
  refine ⟨hds0, hsc0, htf0, hpv0, hscore, ?_, ?_⟩
  · rw [calculate_grade_eq, hscore, getGrade_two]
  · rw [calculate_recs_eq]
    unfold generateRecommendations
    rw [hds0, hsc0, htf0, hpv0, hcovd, hcovv]
    rw [if_pos (by norm_num : (0:ℝ) < 0.7), if_pos (by norm_num : (0:ℝ) < 0.7)]
    rw [if_pos (by norm_num : (0:ℝ) < 0.5), if_pos (by norm_num : (0.1:ℝ) < 0.5)]
    rw [if_pos (by decide : (!false) = true), if_pos (by decide : (!false) = true)]
    rfl

/-- Witness for C6 at a concrete empty-history address. -/
theorem claim_C6_witness :
    ((⟨"ADDR-0", 0, 0, 0, [], [], none⟩ : AddressData).deliveries = [] ∧
     (⟨"ADDR-0", 0, 0, 0, [], [], none⟩ : AddressData).verifications = []) ∧
    ((defaultCalculator.calculate (⟨"ADDR-0", 0, 0, 0, [], [], none⟩ : AddressData) 0).score = 2 ∧
     (defaultCalculator.calculate (⟨"ADDR-0", 0, 0, 0, [], [], none⟩ : AddressData) 0).grade
       = "F") :=
  ⟨⟨rfl, rfl⟩,
   ⟨(claim_C6_empty_history ⟨"ADDR-0", 0, 0, 0, [], [], none⟩ 0 rfl rfl).2.2.2.2.1,
    (claim_C6_empty_history ⟨"ADDR-0", 0, 0, 0, [], [], none⟩ 0 rfl rfl).2.2.2.2.2.1⟩⟩

end ConfidenceScore

namespace ConfidenceScore

/-- Claim C7: constructing a scorer whose weights sum differs from 1.0 by more
than 0.001 fails at construction with a validation error, before any scoring
call; construction within tolerance succeeds. -/
theorem claim_C7_weight_sum_validation (w : Weights) (half_life reference : ℝ) :
    (|w.total - 1| ≤ 0.001 →
      ∃ c, mkCalculator w half_life reference = Except.ok c) ∧
    (0.001 < |w.total - 1| →
      ∃ e, mkCalculator w half_life reference = Except.error e) := by
  constructor
  · intro h
    refine ⟨⟨w, half_life, reference, Real.log 2 / half_life⟩, ?_⟩
    unfold mkCalculator
    rw [if_neg (not_lt.mpr h)]
  · intro h
    refine ⟨"Weights must sum to 1.0", ?_⟩
    unfold mkCalculator
    rw [if_pos h]

/-- Witness for C7: weights summing to 0.8 fail, the default weights succeed. -/
theorem claim_C7_witness :
    (0.001 < |(⟨0.2, 0.2, 0.2, 0.2⟩ : Weights).total - 1| ∧
      ∃ e, mkCalculator ⟨0.2, 0.2, 0.2, 0.2⟩ 180 50 = Except.error e) ∧
    (|WEIGHTS.total - 1| ≤ 0.001 ∧
      ∃ c, mkCalculator WEIGHTS 180 50 = Except.ok c) := by
  have h1 : (⟨0.2, 0.2, 0.2, 0.2⟩ : Weights).total - 1 = -(0.2 : ℝ) := by
    norm_num [Weights.total]
  have h2 : WEIGHTS.total - 1 = 0 := by
    norm_num [Weights.total, WEIGHTS]
  have hbad : (0.001 : ℝ) < |(⟨0.2, 0.2, 0.2, 0.2⟩ : Weights).total - 1| := by
    rw [h1, abs_neg, abs_of_nonneg (by norm_num : (0:ℝ) ≤ 0.2)]
    norm_num
  have hgood : |WEIGHTS.total - 1| ≤ (0.001 : ℝ) := by
    rw [h2, abs_zero]
    norm_num
  exact ⟨⟨hbad, (claim_C7_weight_sum_validation ⟨0.2, 0.2, 0.2, 0.2⟩ 180 50).2 hbad⟩,
    ⟨hgood, (claim_C7_weight_sum_validation WEIGHTS 180 50).1 hgood⟩⟩

/-- Claim C5 is violated by the code: a verification with `verified = true`,
`quality_score = 1`, dated 180 days after `as_of_date`, yields a
physical-verification component raw value of `exp(ln 2) = 2 > 1`, because
`_calculate_physical_verification` lacks the `max(0, days_since)` guard that
`_calculate_temporal_freshness` applies. -/
theorem claim_C5_pvs_exceeds_range :
    (calculatePhysicalVerification defaultCalculator
        [⟨"VER-1", "AGT-001", 180, true, 1, "photo", 5, none⟩] 0).value = 2 ∧
    ¬((calculatePhysicalVerification defaultCalculator
        [⟨"VER-1", "AGT-001", 180, true, 1, "photo", 5, none⟩] 0).value ≤ 1) := by
  have hval : (calculatePhysicalVerification defaultCalculator
      [⟨"VER-1", "AGT-001", 180, true, 1, "photo", 5, none⟩] 0).value = 2 := by
    show (1 : ℝ) * Real.exp (-(defaultCalculator.lambda_decay
      * ((tdDays ((0 : ℚ) - 180) : ℤ) : ℝ))) = 2
    have h1 : tdDays ((0 : ℚ) - 180) = -180 := by
      unfold tdDays
      rw [show ((0 : ℚ) - 180) = ((-180 : ℤ) : ℚ) by norm_num, Int.floor_intCast]
    rw [h1]
    have h2 : -(defaultCalculator.lambda_decay * (((-180 : ℤ) : ℝ))) = Real.log 2 := by
      show -(Real.log 2 / DEFAULT_HALF_LIFE_DAYS * (((-180 : ℤ) : ℝ))) = Real.log 2
      unfold DEFAULT_HALF_LIFE_DAYS
      push_cast
      ring
    rw [h2, Real.exp_log (by norm_num : (0:ℝ) < 2)]
    norm_num
  refine ⟨hval, ?_⟩
  rw [hval]
  norm_num

end ConfidenceScore

namespace ConfidenceScore

/-- Per-record delivery points lie in `[0, 100]` (for every status). -/
lemma points_bounds (d : DeliveryRecord) :
    0 ≤ (match DELIVERY_POINTS d.status with | some p => p | none => (0:ℝ)) ∧
    (match DELIVERY_POINTS d.status with | some p => p | none => (0:ℝ)) ≤ 100 := by
  cases h : d.status <;> norm_num [DELIVERY_POINTS]

/-- Total delivery points lie in `[0, 100 * count]`. -/
lemma sum_points_bounds : ∀ (l : List DeliveryRecord),
    0 ≤ (l.map fun d =>
      match DELIVERY_POINTS d.status with | some p => p | none => (0:ℝ)).sum ∧
    (l.map fun d =>
      match DELIVERY_POINTS d.status with | some p => p | none => (0:ℝ)).sum
      ≤ 100 * (l.length : ℝ)
  | [] => by simp
  | d :: l => by
    obtain ⟨ih1, ih2⟩ := sum_points_bounds l
    obtain ⟨hp1, hp2⟩ := points_bounds d
    rw [List.map_cons, List.sum_cons, List.length_cons]
    constructor
    · positivity
    · push_cast
      linarith

/-- Claim C9: for every input the final score lies in `[0, 100]`; and appending
one additional DELIVERED delivery record (all other fields arbitrary, history
otherwise fixed) never decreases the raw value of the delivery-success component. -/
theorem claim_C9_range_and_monotonicity :
    (∀ (c : Calculator) (a : AddressData) (t : ℚ),
      0 ≤ (c.calculate a t).score ∧ (c.calculate a t).score ≤ 100) ∧
    (∀ (ds : List DeliveryRecord) (i : String) (ts : ℚ) (alat alon : Option ℚ)
        (er : Option ℤ) (nt : Option String),
      (calculateDeliverySuccess ds).value ≤
        (calculateDeliverySuccess
          (ds ++ [⟨i, ts, DeliveryStatus.DELIVERED, alat, alon, er, nt⟩])).value) := by
  constructor
  · intro c a t
    rw [calculate_score_eq]
    exact ⟨le_max_left 0 _, max_le (by norm_num) (min_le_left 100 _)⟩
  · intro ds i ts alat alon er nt
    simp only [calculateDeliverySuccess]
    rw [List.filter_append]
    have hf0 : List.filter (fun d => d.status != DeliveryStatus.PENDING)
        ([⟨i, ts, DeliveryStatus.DELIVERED, alat, alon, er, nt⟩] : List DeliveryRecord)
        = [⟨i, ts, DeliveryStatus.DELIVERED, alat, alon, er, nt⟩] := rfl
    rw [hf0]
    set d0 : DeliveryRecord := ⟨i, ts, DeliveryStatus.DELIVERED, alat, alon, er, nt⟩ with hd0
    set l := List.filter (fun d => d.status != DeliveryStatus.PENDING) ds with hl
    have hne : (l ++ [d0]).isEmpty = false := by
      cases l <;> rfl
    rw [hne]
    rw [if_neg (by simp : ¬(false = true))]
    have hsum : ((l ++ [d0]).map fun d =>
        match DELIVERY_POINTS d.status with | some p => p | none => (0:ℝ)).sum
        = (l.map fun d =>
            match DELIVERY_POINTS d.status with | some p => p | none => (0:ℝ)).sum
          + 100 := by
      rw [List.map_append, List.sum_append]
      have : ([d0].map fun d =>
        match DELIVERY_POINTS d.status with | some p => p | none => (0:ℝ)).sum = 100 := by
        rw [List.map_cons, List.map_nil, List.sum_cons, List.sum_nil]
        show (100 : ℝ) + 0 = 100
        norm_num
      rw [this]
    rw [hsum]
    have hlen : (l ++ [d0]).length = l.length + 1 := by
      rw [List.length_append]
      rfl
    rw [hlen]
    obtain ⟨hS0, hS1⟩ := sum_points_bounds l
    by_cases h0 : l.isEmpty
    · have hl0 : l = [] := List.isEmpty_iff.mp h0
      rw [hl0]
      rw [if_pos (show (([] : List DeliveryRecord).isEmpty) = true from rfl)]
      rw [if_pos (by norm_num : ((([] : List DeliveryRecord).length + 1 : ℕ) : ℝ) * 100 > 0)]
      show (0:ℝ) ≤ _
      rw [hl0] at hS0
      have h100 : (((([] : List DeliveryRecord).length + 1 : ℕ)) : ℝ) * 100 = 100 := by
        norm_num
      rw [h100]
      positivity
    · rw [if_neg (by simp [h0] : ¬(l.isEmpty = true))]
      have hlne : l ≠ [] := by
        intro hnil
        apply h0
        rw [hnil]
        rfl
      have hlpos : 0 < l.length := List.length_pos.mpr hlne
      have hden1 : (0:ℝ) < (l.length : ℝ) * 100 := by
        have : (0:ℝ) < (l.length : ℝ) := by exact_mod_cast hlpos
        nlinarith
      have hden2 : (0:ℝ) < ((l.length + 1 : ℕ) : ℝ) * 100 := by
        have : (0:ℝ) < ((l.length + 1 : ℕ) : ℝ) := by positivity
        nlinarith
      rw [if_pos (by exact_mod_cast hden1), if_pos (by exact_mod_cast hden2)]
      show _ / _ ≤ _ / _
      rw [div_le_div_iff hden1 hden2]
      push_cast
      nlinarith

end ConfidenceScore
